import Mathlib

/-!
Shallow embedding of the Experimentation and Personalization Engine of the
gitize newsletter platform, together with proofs about the claims of its
specification.

Sources embedded:
- src/backend/src/services/ab_testing.rs (A/B testing framework)
- src/backend/src/services/newsletter_analytics.rs (engagement analytics)
- src/backend/src/services/personalization_engine.rs (segmentation and scoring)

Modelling conventions, chosen once and used throughout:
- Rust f64 values are modelled as rational numbers (exact arithmetic; the
  spec and the claims are about the ideal formulas, not about rounding).
- Square-root comparisons of the two-proportion z-test are encoded without
  sqrt: for a nonnegative threshold t and a positive variance v,
  |d| / sqrt v >= t iff d^2 / v >= t^2, so the embedded test compares the
  squared z-score against squared thresholds.  When the variance is
  negative the Rust code produces NaN and every threshold comparison is
  false (confidence 0); the squared encoding also yields 0 there because
  d^2 / v <= 0 is below every positive squared threshold.
- chrono timestamps are modelled as integers; day differences such as
  num_days of a chrono duration become integer subtraction (the claims do
  not depend on sub-day truncation).
- HashMap String K stores are modelled as functions String -> Option K
  (one value per key, exactly the HashMap contract); HashMap insert is
  functional update.
- Uuid::new_v4 and the nondeterministic clock are modelled as explicit
  parameters (fresh id, now) of the operations that use them.
- std DefaultHasher is external library code, not repository code; it is
  modelled as an explicit parameter hashFn : String -> Nat, truncated to
  32 bits exactly where the source casts hasher.finish() to u32.
- Fields that no embedded code path and no claim reads (the free-form
  VariantConfiguration, serde_json payload maps, user_agent / ip strings,
  the link-analytics and timeline outputs built from payload maps) are
  omitted from the corresponding records; every field that any embedded
  function reads or writes is present.
- A Rust panic (the out-of-bounds index variants[0] in assign_user_to_test)
  is modelled by an outer Option layer: none means the call panics.
-/

namespace Gitize

/-! ## A/B testing framework (ab_testing.rs) -/

inductive ABTestError where
  | TestNotFound (msg : String)
  | InvalidConfiguration (msg : String)
  | TestAlreadyExists (msg : String)
  | StatisticalError (msg : String)
  | InsufficientData
deriving DecidableEq

inductive TestStatus where
  | Draft
  | Running
  | Paused
  | Completed
  | Archived
deriving DecidableEq

/-- Variant of an experiment.  The free-form configuration record is
omitted: no embedded code path reads it. -/
structure TestVariant where
  id : String
  name : String
  description : String
  traffic_weight : ℚ
deriving DecidableEq

structure ABTest where
  id : String
  name : String
  description : String
  status : TestStatus
  variants : List TestVariant
  traffic_allocation : ℚ
  created_at : Int
  started_at : Option Int
  ended_at : Option Int
  target_metric : String
  minimum_sample_size : Nat
  confidence_level : ℚ
deriving DecidableEq

structure TestAssignment where
  user_id : Option Int
  email : String
  test_id : String
  variant_id : String
  assigned_at : Int
  session_id : Option String
deriving DecidableEq

inductive EventType where
  | EmailSent
  | EmailOpened
  | EmailClicked
  | LinkClicked
  | Conversion
  | Unsubscribe
  | Custom (name : String)
deriving DecidableEq

/-- Test event; the free-form event_data payload map is omitted (no
embedded code path reads it). -/
structure TestEvent where
  id : String
  test_id : String
  variant_id : String
  user_id : Option Int
  email : String
  event_type : EventType
  timestamp : Int
deriving DecidableEq

/-- The ABTestingFramework state: tests and assignments are HashMaps in the
source, modelled as functions from keys to optional values; note that the
assignment table is keyed by email alone. -/
structure ABState where
  tests : String → Option ABTest
  assignments : String → Option TestAssignment
  events : List TestEvent

def ABState.initial : ABState :=
  ⟨fun _ => none, fun _ => none, []⟩

/-- HashMap insert. -/
def updateMap {α : Type} (f : String → Option α) (k : String) (v : α) :
    String → Option α :=
  fun x => if x = k then some v else f x

def U32MAX : Nat := 4294967295

/-- hash_user_identifier: DefaultHasher is external, modelled by the
parameter hashFn; the cast of hasher.finish() to u32 is the 2^32
truncation. -/
def hashUserIdentifier (hashFn : String → Nat) (email : String) : Nat :=
  hashFn email % 4294967296

/-- (test.traffic_allocation * u32::MAX as f64) as u32: a float-to-int cast
truncates toward zero and saturates at the bounds of the target type. -/
def trafficThreshold (alloc : ℚ) : Nat :=
  min U32MAX (Int.toNat ⌊alloc * (U32MAX : ℚ)⌋)

def totalWeight (test : ABTest) : ℚ :=
  (test.variants.map TestVariant.traffic_weight).sum

/-- validate_test_configuration. -/
def validateTestConfiguration (test : ABTest) : Except ABTestError Unit :=
  if test.variants.isEmpty then
    .error (.InvalidConfiguration "Test must have at least one variant")
  else if test.variants.length < 2 then
    .error (.InvalidConfiguration "Test must have at least two variants")
  else if 1/1000 < |totalWeight test - 1| then
    .error (.InvalidConfiguration "Variant traffic weights must sum to 1.0")
  else if test.traffic_allocation < 0 ∨ 1 < test.traffic_allocation then
    .error (.InvalidConfiguration "Traffic allocation must be between 0.0 and 1.0")
  else if test.confidence_level < 1/2 ∨ 99/100 < test.confidence_level then
    .error (.InvalidConfiguration "Confidence level must be between 0.5 and 0.99")
  else
    .ok ()

/-- create_test; freshId stands for the Uuid generated when the given id is
empty, now for Utc::now(). -/
def createTest (s : ABState) (test : ABTest) (freshId : String) (now : Int) :
    Except ABTestError (String × ABState) :=
  match validateTestConfiguration test with
  | .error e => .error e
  | .ok _ =>
    let t1 := if test.id = "" then { test with id := freshId } else test
    if (s.tests t1.id).isSome then
      .error (.TestAlreadyExists t1.id)
    else
      let t2 := { t1 with created_at := now, status := TestStatus.Draft }
      .ok (t2.id, { s with tests := updateMap s.tests t2.id t2 })

/-- start_test. -/
def startTest (s : ABState) (test_id : String) (now : Int) :
    Except ABTestError (Unit × ABState) :=
  match s.tests test_id with
  | none => .error (.TestNotFound test_id)
  | some t =>
    match t.status with
    | .Draft =>
        let t2 := { t with status := TestStatus.Running, started_at := some now }
        .ok ((), { s with tests := updateMap s.tests test_id t2 })
    | .Paused =>
        let t2 := { t with status := TestStatus.Running, started_at := some now }
        .ok ((), { s with tests := updateMap s.tests test_id t2 })
    | _ => .error (.InvalidConfiguration "Test cannot be started in current status")

/-- stop_test. -/
def stopTest (s : ABState) (test_id : String) (now : Int) :
    Except ABTestError (Unit × ABState) :=
  match s.tests test_id with
  | none => .error (.TestNotFound test_id)
  | some t =>
    match t.status with
    | .Running =>
        let t2 := { t with status := TestStatus.Completed, ended_at := some now }
        .ok ((), { s with tests := updateMap s.tests test_id t2 })
    | _ => .error (.InvalidConfiguration "Test is not currently running")

/-- The loop of select_variant_for_user: walk the variants accumulating
traffic weight, returning the first variant whose cumulative weight is at
least the normalized hash. -/
def selectVariantAux (nh : ℚ) (cum : ℚ) : List TestVariant → Option TestVariant
  | [] => none
  | v :: rest =>
    let c := cum + v.traffic_weight
    if nh ≤ c then some v else selectVariantAux nh c rest

/-- select_variant_for_user. -/
def selectVariantForUser (hashFn : String → Nat) (variants : List TestVariant)
    (email : String) : Except ABTestError TestVariant :=
  let user_hash := hashUserIdentifier hashFn email
  let normalized_hash : ℚ := (user_hash : ℚ) / (U32MAX : ℚ)
  match selectVariantAux normalized_hash 0 variants with
  | some v => .ok v
  | none =>
    match variants.getLast? with
    | some v => .ok v
    | none => .error (.InvalidConfiguration "No variants available")

/-- The fresh-assignment path of assign_user_to_test (after the existing
assignment check).  none models the panic of the index variants[0] on an
empty variant list. -/
def assignFresh (hashFn : String → Nat) (s : ABState) (test : ABTest)
    (test_id : String) (user_id : Option Int) (email : String) (now : Int) :
    Option (Except ABTestError (TestAssignment × ABState)) :=
  let user_hash := hashUserIdentifier hashFn email
  let traffic_threshold := trafficThreshold test.traffic_allocation
  if traffic_threshold < user_hash then
    match test.variants.head? with
    | none => none
    | some control =>
      let a : TestAssignment := ⟨user_id, email, test_id, control.id, now, none⟩
      some (.ok (a, { s with assignments := updateMap s.assignments email a }))
  else
    match selectVariantForUser hashFn test.variants email with
    | .error e => some (.error e)
    | .ok v =>
      let a : TestAssignment := ⟨user_id, email, test_id, v.id, now, none⟩
      some (.ok (a, { s with assignments := updateMap s.assignments email a }))

/-- assign_user_to_test. -/
def assignUserToTest (hashFn : String → Nat) (s : ABState) (test_id : String)
    (user_id : Option Int) (email : String) (now : Int) :
    Option (Except ABTestError (TestAssignment × ABState)) :=
  match s.tests test_id with
  | none => some (.error (.TestNotFound test_id))
  | some test =>
    if test.status = TestStatus.Running then
      match s.assignments email with
      | some existing =>
        if existing.test_id = test_id then some (.ok (existing, s))
        else assignFresh hashFn s test test_id user_id email now
      | none => assignFresh hashFn s test test_id user_id email now
    else
      some (.error (.InvalidConfiguration "Test is not currently running"))

/-- get_user_assignment. -/
def getUserAssignment (s : ABState) (email : String) : Option TestAssignment :=
  s.assignments email

/-- record_event. -/
def recordEvent (s : ABState) (test_id variant_id : String)
    (user_id : Option Int) (email : String) (event_type : EventType)
    (eventId : String) (now : Int) : Except ABTestError (Unit × ABState) :=
  if (s.tests test_id).isSome then
    .ok ((), { s with events := s.events ++
      [⟨eventId, test_id, variant_id, user_id, email, event_type, now⟩] })
  else
    .error (.TestNotFound test_id)

/-- Per-variant analysis row; the metrics map (open/click/unsubscribe
rates) is omitted: determine_winner reads only the id, the conversion rate
and the sample size. -/
structure VariantResults where
  variant_id : String
  variant_name : String
  sample_size : Nat
  conversion_rate : ℚ
  confidence_interval : ℚ × ℚ
deriving DecidableEq

/-- calculate_statistical_confidence: the two-proportion z-test.  The
source computes standard_error = sqrt v with
v = pooled * (1 - pooled) * (1/n1 + 1/n2), returns 0 when the standard
error is 0, and otherwise classifies z = |r1 - r2| / standard_error against
the thresholds 2.576, 1.96, 1.645, 1.28.  Squared encoding (see the header
comment): sqrt v = 0 iff v = 0 for v >= 0, and for v > 0 the comparison
z >= t is equivalent to (r1 - r2)^2 / v >= t^2; for v < 0 the source
produces NaN and every comparison is false, matching the encoded quotient
being nonpositive. -/
def calculateStatisticalConfidence (rate1 : ℚ) (size1 : Nat) (rate2 : ℚ)
    (size2 : Nat) : Except ABTestError ℚ :=
  if size1 = 0 ∨ size2 = 0 then .error .InsufficientData
  else
    let pooled : ℚ := (rate1 * size1 + rate2 * size2) / ((size1 : ℚ) + size2)
    let varTerm : ℚ := pooled * (1 - pooled) * (1 / size1 + 1 / size2)
    if varTerm = 0 then .ok 0
    else
      let zSq : ℚ := (rate1 - rate2) ^ 2 / varTerm
      .ok (if 6635776/1000000 ≤ zSq then 99/100
        else if 38416/10000 ≤ zSq then 95/100
        else if 2706025/1000000 ≤ zSq then 9/10
        else if 16384/10000 ≤ zSq then 4/5
        else 0)

/-- The comparison loop of determine_winner: for every variant other than
the best one (skipped by id), compute the pairwise confidence, keep the
running maximum and flag significance when any confidence reaches the
target level. -/
def winnerLoop (best : VariantResults) (confidence_level : ℚ) :
    List VariantResults → ℚ × Bool → Except ABTestError (ℚ × Bool)
  | [], acc => .ok acc
  | v :: rest, (mc, sig) =>
    if v.variant_id = best.variant_id then winnerLoop best confidence_level rest (mc, sig)
    else
      match calculateStatisticalConfidence best.conversion_rate best.sample_size
          v.conversion_rate v.sample_size with
      | .error e => .error e
      | .ok c =>
        winnerLoop best confidence_level rest
          (max mc c, sig || (if confidence_level ≤ c then true else false))

/-- Rust max_by over a nonempty iterator: fold keeping the later element on
ties, so the last maximum wins. -/
def lastMaxByRate (v : VariantResults) (rest : List VariantResults) : VariantResults :=
  rest.foldl (fun b w => if b.conversion_rate > w.conversion_rate then b else w) v

/-- determine_winner: fewer than two rows yield no winner; otherwise the
highest-conversion-rate row (last maximum, as Rust max_by) is the
candidate, the loop compares it against every other row, and the winner is
declared when the significance flag is set. -/
def determineWinner (variant_results : List VariantResults)
    (confidence_level : ℚ) : Except ABTestError (Option String × ℚ × Bool) :=
  match variant_results with
  | [] => .ok (none, 0, false)
  | [_] => .ok (none, 0, false)
  | v :: rest =>
    let best := lastMaxByRate v rest
    match winnerLoop best confidence_level (v :: rest) (0, false) with
    | .error e => .error e
    | .ok (mc, sig) =>
      .ok ((if sig then some best.variant_id else none), mc, sig)

/-- The pairwise confidence of the best row against another row, as a pure
value (defined only when the underlying call cannot fail, i.e. both sample
sizes are positive; 0 as a harmless default otherwise). -/
def pairConfidence (best v : VariantResults) : ℚ :=
  match calculateStatisticalConfidence best.conversion_rate best.sample_size
      v.conversion_rate v.sample_size with
  | .ok c => c
  | .error _ => 0

/-- The rows determine_winner actually compares the best row against:
every row whose variant id differs from the best id. -/
def winnerRivals (best : VariantResults) (l : List VariantResults) :
    List VariantResults :=
  l.filter fun w => !(w.variant_id == best.variant_id)

/-! ## Newsletter engagement analytics (newsletter_analytics.rs) -/

/-- NewsletterAnalyticsError; the diesel DatabaseError constructor is
omitted (its payload is an external ORM type and no embedded code path
produces it). -/
inductive NAError where
  | InvalidTrackingData (msg : String)
  | CampaignNotFound (msg : String)
  | CalculationError (msg : String)
deriving DecidableEq

inductive EngagementEventType where
  | Sent
  | Delivered
  | Opened
  | Clicked
  | Bounced
  | Complained
  | Unsubscribed
  | Converted
deriving DecidableEq

/-- NewsletterCampaign; segment_criteria (a free-form json value read only
by the unclaimed segment-performance grouping) is omitted. -/
structure NewsletterCampaign where
  id : String
  name : String
  subject_line : String
  template_version : String
  sent_at : Option Int
  total_recipients : Int
  created_at : Int
deriving DecidableEq

/-- EmailEngagement; the payload map, user_agent and ip_address are
omitted (read only by the unclaimed link analytics). -/
structure EmailEngagement where
  id : String
  campaign_id : String
  email : String
  user_id : Option Int
  event_type : EngagementEventType
  timestamp : Int
deriving DecidableEq

structure NAState where
  campaigns : String → Option NewsletterCampaign
  engagements : List EmailEngagement

def NAState.initial : NAState := ⟨fun _ => none, []⟩

def updateCampaigns (f : String → Option NewsletterCampaign) (k : String)
    (v : NewsletterCampaign) : String → Option NewsletterCampaign :=
  fun x => if x = k then some v else f x

/-- create_campaign; the Uuid is the explicit campaignId parameter. -/
def createCampaign (s : NAState) (campaignId name subject_line template_version : String)
    (now : Int) : String × NAState :=
  let c : NewsletterCampaign := ⟨campaignId, name, subject_line, template_version, none, 0, now⟩
  (campaignId, { s with campaigns := updateCampaigns s.campaigns campaignId c })

/-- mark_campaign_sent: looks the campaign up and unconditionally stamps
sent_at and overwrites total_recipients. -/
def markCampaignSent (s : NAState) (campaign_id : String) (total_recipients : Int)
    (now : Int) : Except NAError (Unit × NAState) :=
  match s.campaigns campaign_id with
  | none => .error (.CampaignNotFound campaign_id)
  | some c =>
    let c2 := { c with sent_at := some now, total_recipients := total_recipients }
    .ok ((), { s with campaigns := updateCampaigns s.campaigns campaign_id c2 })

/-- track_engagement; the engagement id is the explicit eid parameter. -/
def trackEngagement (s : NAState) (campaign_id email : String) (user_id : Option Int)
    (event_type : EngagementEventType) (eid : String) (now : Int) :
    Except NAError (String × NAState) :=
  if (s.campaigns campaign_id).isSome then
    .ok (eid, { s with engagements := s.engagements ++
      [⟨eid, campaign_id, email, user_id, event_type, now⟩] })
  else
    .error (.CampaignNotFound campaign_id)

/-- count_events (the discriminant comparison of a payload-free enum is
plain equality of the event kind). -/
def countEvents (engagements : List EmailEngagement)
    (event_type : EngagementEventType) : Nat :=
  (engagements.filter fun e => e.event_type == event_type).length

/-- calculate_engagement_score: clamp01 of the weighted positive rates
minus the weighted negative rates. -/
def calculateEngagementScore (open_rate click_rate conversion_rate bounce_rate
    complaint_rate unsubscribe_rate : ℚ) : ℚ :=
  let positive_score := open_rate * (3/10) + click_rate * (4/10) + conversion_rate * (3/10)
  let negative_score := bounce_rate * (4/10) + complaint_rate * (3/10) + unsubscribe_rate * (3/10)
  min 1 (max 0 (positive_score - negative_score))

/-- CampaignAnalytics; the top_clicked_links and engagement_timeline
outputs (built from the omitted payload maps and sub-hour timestamps) are
omitted. -/
structure CampaignAnalytics where
  campaign_id : String
  campaign_name : String
  sent_at : Option Int
  total_recipients : Int
  delivered_count : Nat
  opened_count : Nat
  clicked_count : Nat
  bounced_count : Nat
  complained_count : Nat
  unsubscribed_count : Nat
  converted_count : Nat
  delivery_rate : ℚ
  open_rate : ℚ
  click_rate : ℚ
  click_to_open_rate : ℚ
  bounce_rate : ℚ
  complaint_rate : ℚ
  unsubscribe_rate : ℚ
  conversion_rate : ℚ
  engagement_score : ℚ
deriving DecidableEq

/-- get_campaign_analytics (rates and engagement score part). -/
def getCampaignAnalytics (s : NAState) (campaign_id : String) :
    Except NAError CampaignAnalytics :=
  match s.campaigns campaign_id with
  | none => .error (.CampaignNotFound campaign_id)
  | some campaign =>
    let campaign_engagements := s.engagements.filter fun e => e.campaign_id == campaign_id
    let total_recipients : ℚ := (campaign.total_recipients : ℚ)
    let delivered_count := countEvents campaign_engagements .Delivered
    let opened_count := countEvents campaign_engagements .Opened
    let clicked_count := countEvents campaign_engagements .Clicked
    let bounced_count := countEvents campaign_engagements .Bounced
    let complained_count := countEvents campaign_engagements .Complained
    let unsubscribed_count := countEvents campaign_engagements .Unsubscribed
    let converted_count := countEvents campaign_engagements .Converted
    let delivery_rate := if 0 < total_recipients then (delivered_count : ℚ) / total_recipients else 0
    let open_rate := if 0 < delivered_count then (opened_count : ℚ) / (delivered_count : ℚ) else 0
    let click_rate := if 0 < delivered_count then (clicked_count : ℚ) / (delivered_count : ℚ) else 0
    let click_to_open_rate := if 0 < opened_count then (clicked_count : ℚ) / (opened_count : ℚ) else 0
    let bounce_rate := if 0 < total_recipients then (bounced_count : ℚ) / total_recipients else 0
    let complaint_rate := if 0 < delivered_count then (complained_count : ℚ) / (delivered_count : ℚ) else 0
    let unsubscribe_rate := if 0 < delivered_count then (unsubscribed_count : ℚ) / (delivered_count : ℚ) else 0
    let conversion_rate := if 0 < delivered_count then (converted_count : ℚ) / (delivered_count : ℚ) else 0
    let engagement_score := calculateEngagementScore open_rate click_rate conversion_rate
      bounce_rate complaint_rate unsubscribe_rate
    .ok ⟨campaign_id, campaign.name, campaign.sent_at, campaign.total_recipients,
      delivered_count, opened_count, clicked_count, bounced_count, complained_count,
      unsubscribed_count, converted_count, delivery_rate, open_rate, click_rate,
      click_to_open_rate, bounce_rate, complaint_rate, unsubscribe_rate,
      conversion_rate, engagement_score⟩

/-- The mutating operations of the NewsletterAnalyticsService. -/
inductive NAOp where
  | createC (campaignId name subject_line template_version : String) (now : Int)
  | markSent (campaign_id : String) (total_recipients : Int) (now : Int)
  | track (campaign_id email : String) (user_id : Option Int)
      (event_type : EngagementEventType) (eid : String) (now : Int)
deriving DecidableEq

/-- Apply one mutating operation; a failed operation leaves the state
unchanged. -/
def applyNAOp (op : NAOp) (s : NAState) : NAState :=
  match op with
  | .createC cid name subj ver now => (createCampaign s cid name subj ver now).2
  | .markSent cid n now =>
    match markCampaignSent s cid n now with
    | .ok (_, s2) => s2
    | .error _ => s
  | .track cid email uid et eid now =>
    match trackEngagement s cid email uid et eid now with
    | .ok (_, s2) => s2
    | .error _ => s

/-! ## Personalization engine (personalization_engine.rs) -/

inductive PersonalizationError where
  | InvalidPreferences
  | NoRepositories
  | SegmentationError (msg : String)
deriving DecidableEq

structure SegmentCriteria where
  languages : Option (List String)
  engagement_score_min : Option ℚ
  engagement_score_max : Option ℚ
  frequency : Option String
  tech_interests : Option (List String)
  signup_days_ago_min : Option Int
  signup_days_ago_max : Option Int
deriving DecidableEq

structure UserSegment where
  id : String
  name : String
  description : String
  criteria : SegmentCriteria
deriving DecidableEq

/-- PersonalizationPreferences; signup_date is a timestamp in days (see the
header comment on time modelling). -/
structure PersonalizationPreferences where
  preferred_languages : List String
  tech_stack_interests : List String
  frequency : String
  engagement_score : ℚ
  user_id : Option Int
  signup_date : Option Int
deriving DecidableEq

/-- Repository (models/repository.rs); only the fields the personalization
engine reads are kept: language, description, stars, trending_date (in
days), plus the name to identify a repository. -/
structure Repository where
  name : String
  description : Option String
  stars : Int
  language : Option String
  trending_date : Int
deriving DecidableEq

/-- calculate_segment_match_score: sequential accumulation over the
criterion fields in source order; the two mutable Rust locals score and
total_criteria are threaded as two parallel chains of bindings. -/
def calculateSegmentMatchScore (criteria : SegmentCriteria)
    (preferences : PersonalizationPreferences) (now : Int) : ℚ :=
  let score1 : ℚ :=
    match criteria.languages with
    | some segment_languages =>
      if preferences.preferred_languages.any
          (fun lang => segment_languages.contains lang) then 1 else 0
    | none => 0
  let total1 : ℚ := match criteria.languages with | some _ => 1 | none => 0
  let score2 : ℚ :=
    match criteria.engagement_score_min with
    | some min_engagement =>
      score1 + (if min_engagement ≤ preferences.engagement_score then 1 else 0)
    | none => score1
  let total2 : ℚ :=
    match criteria.engagement_score_min with | some _ => total1 + 1 | none => total1
  let score3 : ℚ :=
    match criteria.engagement_score_max with
    | some max_engagement =>
      score2 + (if preferences.engagement_score ≤ max_engagement then 1 else 0)
    | none => score2
  let total3 : ℚ :=
    match criteria.engagement_score_max with | some _ => total2 + 1 | none => total2
  let score4 : ℚ :=
    match criteria.frequency with
    | some segment_frequency =>
      score3 + (if preferences.frequency = segment_frequency then 1 else 0)
    | none => score3
  let total4 : ℚ :=
    match criteria.frequency with | some _ => total3 + 1 | none => total3
  let score5 : ℚ :=
    match criteria.tech_interests with
    | some segment_interests =>
      score4 + (if preferences.tech_stack_interests.any
          (fun interest => segment_interests.contains interest) then 1 else 0)
    | none => score4
  let total5 : ℚ :=
    match criteria.tech_interests with | some _ => total4 + 1 | none => total4
  let score6 : ℚ :=
    match preferences.signup_date, criteria.signup_days_ago_min with
    | some signup_date, some min_days =>
      score5 + (if min_days ≤ now - signup_date then 1 else 0)
    | _, _ => score5
  let total6 : ℚ :=
    match preferences.signup_date, criteria.signup_days_ago_min with
    | some _, some _ => total5 + 1
    | _, _ => total5
  let score7 : ℚ :=
    match preferences.signup_date, criteria.signup_days_ago_max with
    | some signup_date, some max_days =>
      score6 + (if now - signup_date ≤ max_days then 1 else 0)
    | _, _ => score6
  let total7 : ℚ :=
    match preferences.signup_date, criteria.signup_days_ago_max with
    | some _, some _ => total6 + 1
    | _, _ => total6
  if 0 < total7 then score7 / total7 else 0

/-- The number of points the source actually awards: one per satisfied
criterion (a signup-age criterion can only be satisfied when the
preferences carry a signup date). -/
def satisfiedTally (criteria : SegmentCriteria)
    (preferences : PersonalizationPreferences) (now : Int) : ℚ :=
  (match criteria.languages with
   | some segment_languages =>
     if preferences.preferred_languages.any
         (fun lang => segment_languages.contains lang) then 1 else 0
   | none => 0)
  + (match criteria.engagement_score_min with
     | some min_engagement =>
       if min_engagement ≤ preferences.engagement_score then 1 else 0
     | none => 0)
  + (match criteria.engagement_score_max with
     | some max_engagement =>
       if preferences.engagement_score ≤ max_engagement then 1 else 0
     | none => 0)
  + (match criteria.frequency with
     | some segment_frequency =>
       if preferences.frequency = segment_frequency then 1 else 0
     | none => 0)
  + (match criteria.tech_interests with
     | some segment_interests =>
       if preferences.tech_stack_interests.any
           (fun interest => segment_interests.contains interest) then 1 else 0
     | none => 0)
  + (match preferences.signup_date, criteria.signup_days_ago_min with
     | some signup_date, some min_days =>
       if min_days ≤ now - signup_date then 1 else 0
     | _, _ => 0)
  + (match preferences.signup_date, criteria.signup_days_ago_max with
     | some signup_date, some max_days =>
       if now - signup_date ≤ max_days then 1 else 0
     | _, _ => 0)

/-- The denominator the source actually uses: one per present criterion
field, except that the two signup-age fields count only when the
preferences carry a signup date. -/
def presentTally (criteria : SegmentCriteria)
    (preferences : PersonalizationPreferences) : ℚ :=
  (if criteria.languages.isSome then 1 else 0)
  + (if criteria.engagement_score_min.isSome then 1 else 0)
  + (if criteria.engagement_score_max.isSome then 1 else 0)
  + (if criteria.frequency.isSome then 1 else 0)
  + (if criteria.tech_interests.isSome then 1 else 0)
  + (if preferences.signup_date.isSome && criteria.signup_days_ago_min.isSome then 1 else 0)
  + (if preferences.signup_date.isSome && criteria.signup_days_ago_max.isSome then 1 else 0)

/-- The denominator the claim describes: one per present criterion field,
the two signup-age fields included whenever they are present in the
criteria. -/
def claimPresentTally (criteria : SegmentCriteria) : ℚ :=
  (if criteria.languages.isSome then 1 else 0)
  + (if criteria.engagement_score_min.isSome then 1 else 0)
  + (if criteria.engagement_score_max.isSome then 1 else 0)
  + (if criteria.frequency.isSome then 1 else 0)
  + (if criteria.tech_interests.isSome then 1 else 0)
  + (if criteria.signup_days_ago_min.isSome then 1 else 0)
  + (if criteria.signup_days_ago_max.isSome then 1 else 0)

/-- The match score as the claim describes it: satisfied criteria divided
by present criteria, counting every present criterion field in the
denominator. -/
def claimSegmentMatchScore (criteria : SegmentCriteria)
    (preferences : PersonalizationPreferences) (now : Int) : ℚ :=
  if 0 < claimPresentTally criteria then
    satisfiedTally criteria preferences now / claimPresentTally criteria
  else 0

/-- Whether the pattern is an initial segment of the other list. -/
def seqStartsWith {α : Type} [DecidableEq α] : List α → List α → Bool
  | [], _ => true
  | _ :: _, [] => false
  | a :: as, b :: bs => a == b && seqStartsWith as bs

/-- Whether the haystack contains the pattern as a contiguous segment;
models str::contains of Rust on the underlying character sequences. -/
def seqContains {α : Type} [DecidableEq α] (pat : List α) : List α → Bool
  | [] => pat.isEmpty
  | a :: tl => seqStartsWith pat (a :: tl) || seqContains pat tl

def strContainsSub (s pat : String) : Bool :=
  seqContains pat.toList s.toList

/-- The star-count bracket of calculate_repository_score; the Rust match on
an i32 sends every value outside the listed nonnegative ranges (hence also
any negative value) to the default arm. -/
def starScore (stars : Int) : ℚ :=
  if 0 ≤ stars ∧ stars ≤ 100 then 0
  else if 101 ≤ stars ∧ stars ≤ 1000 then 1/10
  else if 1001 ≤ stars ∧ stars ≤ 5000 then 2/10
  else if 5001 ≤ stars ∧ stars ≤ 10000 then 3/10
  else 4/10

/-- calculate_repository_score. -/
def calculateRepositoryScore (repository : Repository)
    (preferences : PersonalizationPreferences) (now : Int) : ℚ × List String :=
  let base : ℚ × List String := (1/10, [])
  let st1 :=
    match repository.language with
    | some repo_language =>
      if preferences.preferred_languages.contains repo_language then
        (base.1 + 4/10, base.2 ++ ["Matches your " ++ repo_language ++ " preference"])
      else base
    | none => base
  let st2 :=
    match repository.description with
    | some description =>
      let description_lower := description.toLower
      preferences.tech_stack_interests.foldl
        (fun (acc : ℚ × List String) (interest : String) =>
          if strContainsSub description_lower interest.toLower then
            (acc.1 + 2/10, acc.2 ++ ["Related to " ++ interest])
          else acc) st1
    | none => st1
  let st3 := (st2.1 + starScore repository.stars,
    if 1000 < repository.stars then
      st2.2 ++ ["Popular project with " ++ toString repository.stars ++ " stars"]
    else st2.2)
  let days_since_trending := now - repository.trending_date
  let st4 :=
    if days_since_trending ≤ 1 then (st3.1 + 2/10, st3.2 ++ ["Recently trending"])
    else if days_since_trending ≤ 3 then (st3.1 + 1/10, st3.2 ++ ["Trending this week"])
    else st3
  (st4.1 * (1 + preferences.engagement_score * (2/10)), st4.2)

/-- Stable insertion into a sorted list: an element is placed before the
first element it may precede, so elements comparing equal keep their
original relative order. -/
def insertSorted {α : Type} (le : α → α → Bool) (x : α) : List α → List α
  | [] => [x]
  | y :: ys => if le x y then x :: y :: ys else y :: insertSorted le x ys

/-- Stable sort; models Vec::sort_by of Rust (a stable sort): for a total
preorder comparator the stably sorted permutation is unique, so insertion
sort is an exact model of it. -/
def stableSortBy {α : Type} (le : α → α → Bool) : List α → List α
  | [] => []
  | x :: xs => insertSorted le x (stableSortBy le xs)

/-- The synthetic general segment returned when no catalog segment scores
above zero. -/
def generalSegment : UserSegment :=
  ⟨"general", "General", "General audience",
    ⟨none, none, none, none, none, none, none⟩⟩

/-- determine_user_segment: keep the strictly best positive-scoring
segment, first encountered on ties; the source never fails, so the Ok
wrapper is dropped. -/
def determineUserSegment (segments : List UserSegment)
    (preferences : PersonalizationPreferences) (now : Int) : UserSegment :=
  let best := segments.foldl
    (fun (acc : Option (UserSegment × ℚ)) segment =>
      let match_score := calculateSegmentMatchScore segment.criteria preferences now
      if 0 < match_score then
        match acc with
        | none => some (segment, match_score)
        | some (b, current_score) =>
          if current_score < match_score then some (segment, match_score)
          else some (b, current_score)
      else acc) none
  match best with
  | some (segment, _) => segment
  | none => generalSegment

structure PersonalizedContent where
  repositories : List Repository
  segment : UserSegment
  personalization_score : ℚ
  reasons : List String
deriving DecidableEq

/-- The descending-by-score comparator of personalize_content. -/
def scoreDesc (a b : Repository × (ℚ × List String)) : Bool :=
  b.2.1 ≤ a.2.1

/-- personalize_content. -/
def personalizeContent (segments : List UserSegment)
    (repositories : List Repository)
    (preferences : PersonalizationPreferences) (now : Int) :
    Except PersonalizationError PersonalizedContent :=
  if repositories.isEmpty then .error .NoRepositories
  else
    let segment := determineUserSegment segments preferences now
    let scored_repos := repositories.map
      (fun repo => (repo, calculateRepositoryScore repo preferences now))
    let sorted_repos := stableSortBy scoreDesc scored_repos
    let personalized_repos := (sorted_repos.take 10).map (fun t => t.1)
    let all_reasons := (sorted_repos.take 5).flatMap (fun t => t.2.2)
    let personalization_score :=
      if sorted_repos.isEmpty then 0
      else ((sorted_repos.take 5).map (fun t => t.2.1)).sum / 5
    .ok ⟨personalized_repos, segment, personalization_score, all_reasons⟩

/-! ## State machine of the ABTestingFramework -/

/-- The mutating operations of the ABTestingFramework. -/
inductive ABOp where
  | createT (test : ABTest) (freshId : String) (now : Int)
  | startT (test_id : String) (now : Int)
  | stopT (test_id : String) (now : Int)
  | assignT (test_id : String) (user_id : Option Int) (email : String) (now : Int)
  | recordEv (test_id variant_id : String) (user_id : Option Int)
      (email : String) (event_type : EventType) (eventId : String) (now : Int)

/-- Apply one mutating operation; a failed (or panicking) operation leaves
the state unchanged. -/
def applyABOp (hashFn : String → Nat) (op : ABOp) (s : ABState) : ABState :=
  match op with
  | .createT test freshId now =>
    match createTest s test freshId now with
    | .ok (_, s2) => s2
    | .error _ => s
  | .startT tid now =>
    match startTest s tid now with
    | .ok (_, s2) => s2
    | .error _ => s
  | .stopT tid now =>
    match stopTest s tid now with
    | .ok (_, s2) => s2
    | .error _ => s
  | .assignT tid uid email now =>
    match assignUserToTest hashFn s tid uid email now with
    | some (.ok (_, s2)) => s2
    | _ => s
  | .recordEv tid vid uid email et eid now =>
    match recordEvent s tid vid uid email et eid now with
    | .ok (_, s2) => s2
    | .error _ => s

/-- States reachable from the empty framework through the public mutating
operations. -/
inductive ABReachable (hashFn : String → Nat) : ABState → Prop
  | init : ABReachable hashFn ABState.initial
  | step (s : ABState) (op : ABOp) : ABReachable hashFn s →
      ABReachable hashFn (applyABOp hashFn op s)

/-- The configuration invariant of a stored experiment: at least two
variants, traffic weights summing to 1 within one thousandth, traffic
allocation in the unit interval, confidence level in the half-to-99
interval. -/
def testValid (t : ABTest) : Prop :=
  2 ≤ t.variants.length ∧ |totalWeight t - 1| ≤ 1/1000 ∧
    0 ≤ t.traffic_allocation ∧ t.traffic_allocation ≤ 1 ∧
    1/2 ≤ t.confidence_level ∧ t.confidence_level ≤ 99/100

/-- Cumulative traffic weight of the first k variants. -/
def cumWeight (variants : List TestVariant) (k : Nat) : ℚ :=
  ((variants.take k).map TestVariant.traffic_weight).sum

/-- Two experiments sharing the validated configuration fields (variant
list, traffic allocation, confidence level). -/
def sameConfig (t2 t : ABTest) : Prop :=
  t2.variants = t.variants ∧ t2.traffic_allocation = t.traffic_allocation ∧
    t2.confidence_level = t.confidence_level

/-! ## Concrete fixtures used by witnesses and counterexamples -/

/-- The state start_test produces on a legal transition. -/
def startedUpdate (s : ABState) (test_id : String) (t : ABTest) (now : Int) : ABState :=
  { s with tests := updateMap s.tests test_id ({ t with status := TestStatus.Running, started_at := some now }) }

/-- The state stop_test produces on a legal transition. -/
def stoppedUpdate (s : ABState) (test_id : String) (t : ABTest) (now : Int) : ABState :=
  { s with tests := updateMap s.tests test_id ({ t with status := TestStatus.Completed, ended_at := some now }) }

/-- A trivial deterministic hash function for concrete evaluations. -/
def hfw : String → Nat := fun _ => 0

def variantA : TestVariant := ⟨"control", "Control", "Original subject line", 1/2⟩

def variantB : TestVariant := ⟨"variant-a", "Variant A", "Emoji subject line", 1/2⟩

/-- A running two-variant experiment with full traffic allocation. -/
def testW : ABTest :=
  ⟨"t1", "Subject Line Test", "Testing subject lines", TestStatus.Running,
    [variantA, variantB], 1, 0, some 0, none, "conversion_rate", 100, 95/100⟩

/-- A draft configuration of the same experiment (as handed to create_test). -/
def testCfg : ABTest :=
  ⟨"t1", "Subject Line Test", "Testing subject lines", TestStatus.Draft,
    [variantA, variantB], 1, 0, none, none, "conversion_rate", 100, 95/100⟩

def sW : ABState := ⟨fun x => if x = "t1" then some testW else none, fun _ => none, []⟩

def aW : TestAssignment := ⟨none, "e@x", "t1", "control", 5, none⟩

def sW1 : ABState := { sW with assignments := updateMap sW.assignments "e@x" aW }

def sDraft : ABState := ⟨fun x => if x = "t2" then some testCfg else none, fun _ => none, []⟩

def a0W : TestAssignment := ⟨none, "e2", "t0", "v0", 0, none⟩

def sW10 : ABState :=
  ⟨fun x => if x = "t1" then some testW else none,
    fun x => if x = "e2" then some a0W else none, []⟩

def a1W : TestAssignment := ⟨none, "e2", "t1", "control", 7, none⟩

def sW10b : ABState := { sW10 with assignments := updateMap sW10.assignments "e2" a1W }

/-- A state reached by creating one valid experiment in the empty
framework. -/
def s9 : ABState := applyABOp hfw (.createT testCfg "fresh" 0) ABState.initial

def vrA : VariantResults := ⟨"a", "A", 200, 0, (0, 0)⟩

def vrB : VariantResults := ⟨"b", "B", 200, 1, (1, 1)⟩

def vrC : VariantResults := ⟨"c", "C", 200, 1, (1, 1)⟩

def naC : NewsletterCampaign := ⟨"c", "camp", "subj", "v1", some 1, 100, 0⟩

def naSW : NAState :=
  ⟨fun x => if x = "c" then some naC else none,
    [⟨"g1", "c", "u1", none, .Delivered, 1⟩,
     ⟨"g2", "c", "u2", none, .Delivered, 1⟩,
     ⟨"g3", "c", "u1", none, .Opened, 2⟩]⟩

def naW0 : NAState := (createCampaign NAState.initial "c" "camp" "subj" "v1" 0).2

/-- The campaign record stored in naW1 (after the first markSent). -/
def cW1 : NewsletterCampaign := ⟨"c", "camp", "subj", "v1", some 1, 5, 0⟩

def naW1 : NAState := applyNAOp (.markSent "c" 5 1) naW0

def naW2 : NAState := applyNAOp (.markSent "c" 7 2) naW1

def repoW : Repository := ⟨"r", none, 0, none, 0⟩

def prefsW : PersonalizationPreferences := ⟨[], [], "weekly", 0, none, none⟩

/-- Criteria with a language list and a signup-age minimum. -/
def critX : SegmentCriteria := ⟨some ["Rust"], none, none, none, none, some 0, none⟩

/-- Preferences matching the language but carrying no signup date. -/
def prefX : PersonalizationPreferences := ⟨["Rust"], [], "weekly", 0, none, none⟩

/-! ## Helper lemmas -/

theorem assignFresh_ok {hashFn : String → Nat} {s : ABState} {test : ABTest}
    {tid : String} {uid : Option Int} {email : String} {now : Int}
    {a : TestAssignment} {s1 : ABState}
    (h : assignFresh hashFn s test tid uid email now = some (.ok (a, s1))) :
    s1.tests = s.tests ∧ s1.events = s.events ∧
    s1.assignments = updateMap s.assignments email a ∧
    a.test_id = tid ∧ a.email = email := by
  simp only [assignFresh] at h
  split at h
  · split at h
    · exact absurd h (by simp)
    · simp only [Option.some.injEq, Except.ok.injEq, Prod.mk.injEq] at h
      obtain ⟨ha, hs⟩ := h
      subst ha; subst hs
      exact ⟨rfl, rfl, rfl, rfl, rfl⟩
  · split at h
    · exact absurd h (by simp)
    · simp only [Option.some.injEq, Except.ok.injEq, Prod.mk.injEq] at h
      obtain ⟨ha, hs⟩ := h
      subst ha; subst hs
      exact ⟨rfl, rfl, rfl, rfl, rfl⟩

theorem assign_ok_facts {hashFn : String → Nat} {s : ABState} {tid : String}
    {uid : Option Int} {email : String} {now : Int}
    {a : TestAssignment} {s1 : ABState}
    (h : assignUserToTest hashFn s tid uid email now = some (.ok (a, s1))) :
    (∃ test, s.tests tid = some test ∧ test.status = TestStatus.Running) ∧
    s1.tests = s.tests ∧ s1.events = s.events ∧
    s1.assignments email = some a ∧ a.test_id = tid ∧
    ∀ e2, e2 ≠ email → s1.assignments e2 = s.assignments e2 := by
  unfold assignUserToTest at h
  split at h
  · next hT => exact absurd h (by simp)
  · next test hT =>
    split at h
    · next hR =>
      split at h
      · next ex hA =>
        split at h
        · next hEx =>
          simp only [Option.some.injEq, Except.ok.injEq, Prod.mk.injEq] at h
          obtain ⟨ha, hs⟩ := h
          subst ha; subst hs
          exact ⟨⟨test, hT, hR⟩, rfl, rfl, hA, hEx, fun _ _ => rfl⟩
        · next =>
          obtain ⟨ht, he, hasg, hid, hem⟩ := assignFresh_ok h
          refine ⟨⟨test, hT, hR⟩, ht, he, ?_, hid, ?_⟩
          · rw [hasg]; simp [updateMap]
          · intro e2 hne; rw [hasg]; simp [updateMap, hne]
      · next hA =>
        obtain ⟨ht, he, hasg, hid, hem⟩ := assignFresh_ok h
        refine ⟨⟨test, hT, hR⟩, ht, he, ?_, hid, ?_⟩
        · rw [hasg]; simp [updateMap]
        · intro e2 hne; rw [hasg]; simp [updateMap, hne]
    · next hR => exact absurd h (by simp)

/-! ## Claim theorems -/

/-- C1: calling assign_user_to_test a second time for the same
(experiment, recipient) pair returns the very same assignment (hence an
identical variant id) and leaves the state unchanged: assignment is stable
and not re-randomized. -/
theorem C1_assign_idempotent {hashFn : String → Nat} {s : ABState} {tid : String}
    {uid uid2 : Option Int} {email : String} {now now2 : Int}
    {a1 : TestAssignment} {s1 : ABState}
    (h : assignUserToTest hashFn s tid uid email now = some (.ok (a1, s1))) :
    assignUserToTest hashFn s1 tid uid2 email now2 = some (.ok (a1, s1)) := by
  obtain ⟨⟨test, hT, hR⟩, ht, _, hA, hid, _⟩ := assign_ok_facts h
  simp [assignUserToTest, ht, hT, hR, hA, hid]

theorem C1_witness :
    assignUserToTest hfw sW "t1" none "e@x" 5 = some (.ok (aW, sW1)) ∧
    assignUserToTest hfw sW1 "t1" none "e@x" 9 = some (.ok (aW, sW1)) :=
  have h1 : assignUserToTest hfw sW "t1" none "e@x" 5 = some (.ok (aW, sW1)) := by
    norm_num [assignUserToTest, assignFresh, selectVariantForUser, selectVariantAux,
      hashUserIdentifier, trafficThreshold, U32MAX, updateMap, hfw, sW, testW,
      variantA, variantB, aW, sW1]
  ⟨h1, C1_assign_idempotent h1⟩

/-- C10: the assignment table is keyed by email alone; a successful
assignment for a different experiment overwrites the previously stored
assignment of that email (so each email keeps at most one assignment, the
most recently stored one, which get_user_assignment returns), while every
other email is untouched. -/
theorem C10_assignments_keyed_by_email {hashFn : String → Nat} {s : ABState}
    {tid : String} {uid : Option Int} {email : String} {now : Int}
    {a0 a1 : TestAssignment} {s1 : ABState}
    (h0 : s.assignments email = some a0) (hne : a0.test_id ≠ tid)
    (h : assignUserToTest hashFn s tid uid email now = some (.ok (a1, s1))) :
    s1.assignments email = some a1 ∧ a1.test_id = tid ∧ a1 ≠ a0 ∧
    getUserAssignment s1 email = some a1 ∧
    ∀ e2, e2 ≠ email → s1.assignments e2 = s.assignments e2 := by
  obtain ⟨_, _, _, hA, hid, hrest⟩ := assign_ok_facts h
  exact ⟨hA, hid, fun hEq => hne (hEq ▸ hid), hA, hrest⟩

theorem C10_witness :
    sW10.assignments "e2" = some a0W ∧
    assignUserToTest hfw sW10 "t1" none "e2" 7 = some (.ok (a1W, sW10b)) ∧
    sW10b.assignments "e2" = some a1W ∧ a1W.test_id = "t1" ∧ a1W ≠ a0W ∧
    getUserAssignment sW10b "e2" = some a1W := by
  have h0 : sW10.assignments "e2" = some a0W := rfl
  have h : assignUserToTest hfw sW10 "t1" none "e2" 7 = some (.ok (a1W, sW10b)) := by
    norm_num [assignUserToTest, assignFresh, selectVariantForUser, selectVariantAux,
      hashUserIdentifier, trafficThreshold, U32MAX, updateMap, hfw, sW10, testW,
      variantA, variantB, a0W, a1W, sW10b] <;> decide
  have hmain := C10_assignments_keyed_by_email h0 (by decide) h
  exact ⟨h0, h, hmain.1, hmain.2.1, hmain.2.2.1, hmain.2.2.2.1⟩

/-- C8: start_test succeeds exactly on Draft or Paused (setting Running and
stamping started_at), stop_test succeeds exactly on Running (setting
Completed and stamping ended_at); any other transition yields
InvalidConfiguration and an unknown id yields TestNotFound. -/
theorem C8_lifecycle_transitions (s : ABState) (test_id : String) (now : Int) :
    (s.tests test_id = none →
      startTest s test_id now = .error (.TestNotFound test_id) ∧
      stopTest s test_id now = .error (.TestNotFound test_id)) ∧
    ∀ t, s.tests test_id = some t →
      ((t.status = TestStatus.Draft ∨ t.status = TestStatus.Paused) →
        startTest s test_id now = .ok ((), startedUpdate s test_id t now)) ∧
      (t.status ≠ TestStatus.Draft → t.status ≠ TestStatus.Paused →
        startTest s test_id now =
          .error (.InvalidConfiguration "Test cannot be started in current status")) ∧
      (t.status = TestStatus.Running →
        stopTest s test_id now = .ok ((), stoppedUpdate s test_id t now)) ∧
      (t.status ≠ TestStatus.Running →
        stopTest s test_id now =
          .error (.InvalidConfiguration "Test is not currently running")) := by
  constructor
  · intro h
    exact ⟨by simp [startTest, h], by simp [stopTest, h]⟩
  · intro t ht
    refine ⟨?_, ?_, ?_, ?_⟩
    · rintro (hD | hP)
      · simp [startTest, ht, hD, startedUpdate]
      · simp [startTest, ht, hP, startedUpdate]
    · intro hnD hnP
      cases hst : t.status with
      | Draft => exact absurd hst hnD
      | Paused => exact absurd hst hnP
      | Running => simp [startTest, ht, hst]
      | Completed => simp [startTest, ht, hst]
      | Archived => simp [startTest, ht, hst]
    · intro hR
      simp [stopTest, ht, hR, stoppedUpdate]
    · intro hnR
      cases hst : t.status with
      | Running => exact absurd hst hnR
      | Draft => simp [stopTest, ht, hst]
      | Paused => simp [stopTest, ht, hst]
      | Completed => simp [stopTest, ht, hst]
      | Archived => simp [stopTest, ht, hst]

theorem C8_witness :
    startTest sDraft "t2" 3 = .ok ((), startedUpdate sDraft "t2" testCfg 3) ∧
    stopTest sDraft "t2" 3 = .error (.InvalidConfiguration "Test is not currently running") ∧
    startTest sDraft "nope" 3 = .error (.TestNotFound "nope") := by
  have hsome := (C8_lifecycle_transitions sDraft "t2" 3).2 testCfg rfl
  have hnone := (C8_lifecycle_transitions sDraft "nope" 3).1 rfl
  exact ⟨hsome.1 (Or.inl rfl), hsome.2.2.2 (by decide), hnone.1⟩

theorem calcStatConf_pos_ok {r1 r2 : ℚ} {n1 n2 : Nat} (h1 : 0 < n1) (h2 : 0 < n2) :
    ∃ c, calculateStatisticalConfidence r1 n1 r2 n2 = .ok c ∧ 0 ≤ c := by
  unfold calculateStatisticalConfidence
  have hne : ¬(n1 = 0 ∨ n2 = 0) := by omega
  rw [if_neg hne]
  simp only []
  split_ifs with h0 ha hb hc hd
  · exact ⟨0, rfl, le_refl 0⟩
  · exact ⟨99/100, rfl, by norm_num⟩
  · exact ⟨95/100, rfl, by norm_num⟩
  · exact ⟨9/10, rfl, by norm_num⟩
  · exact ⟨4/5, rfl, by norm_num⟩
  · exact ⟨0, rfl, le_refl 0⟩

theorem pairConfidence_spec {best v : VariantResults}
    (h1 : 0 < best.sample_size) (h2 : 0 < v.sample_size) :
    calculateStatisticalConfidence best.conversion_rate best.sample_size
      v.conversion_rate v.sample_size = .ok (pairConfidence best v) ∧
    0 ≤ pairConfidence best v := by
  obtain ⟨c, hc, hge⟩ :=
    @calcStatConf_pos_ok best.conversion_rate v.conversion_rate _ _ h1 h2
  constructor
  · simp [pairConfidence, hc]
  · simp only [pairConfidence, hc]
    exact hge

theorem winnerLoop_spec (best : VariantResults) (level : ℚ) (hb : 0 < best.sample_size) :
    ∀ (l : List VariantResults), (∀ w ∈ l, 0 < w.sample_size) → ∀ (mc : ℚ) (sig : Bool),
    winnerLoop best level l (mc, sig) =
      .ok (((winnerRivals best l).map (pairConfidence best)).foldl max mc,
        sig || ((winnerRivals best l).map (pairConfidence best)).any
          fun c => if level ≤ c then true else false) := by
  intro l
  induction l with
  | nil => intro _ mc sig; simp [winnerLoop, winnerRivals]
  | cons w tl ih =>
    intro hpos mc sig
    by_cases hid : w.variant_id = best.variant_id
    · have hbeq : (w.variant_id == best.variant_id) = true := beq_iff_eq.mpr hid
      simp only [winnerLoop, if_pos hid]
      rw [ih (fun x hx => hpos x (List.mem_cons_of_mem _ hx)) mc sig]
      have hr : winnerRivals best (w :: tl) = winnerRivals best tl := by
        simp [winnerRivals, List.filter_cons, hbeq]
      rw [hr]
    · have hbeq : (w.variant_id == best.variant_id) = false := beq_eq_false_iff_ne.mpr hid
      have hw := hpos w (List.mem_cons_self _ _)
      obtain ⟨hcalc, hge⟩ := pairConfidence_spec hb hw
      simp only [winnerLoop, if_neg hid, hcalc]
      rw [ih (fun x hx => hpos x (List.mem_cons_of_mem _ hx))]
      have hr : winnerRivals best (w :: tl) = w :: winnerRivals best tl := by
        simp [winnerRivals, List.filter_cons, hbeq]
      rw [hr]
      simp [Bool.or_assoc]

theorem lastMaxByRate_mem_dom : ∀ (rest : List VariantResults) (v : VariantResults),
    lastMaxByRate v rest ∈ v :: rest ∧
    ∀ x ∈ v :: rest, x.conversion_rate ≤ (lastMaxByRate v rest).conversion_rate := by
  intro rest
  induction rest with
  | nil =>
    intro v
    refine ⟨by simp [lastMaxByRate], ?_⟩
    intro x hx
    rcases List.mem_cons.mp hx with rfl | hx2
    · simp [lastMaxByRate]
    · exact absurd hx2 (List.not_mem_nil x)
  | cons w tl ih =>
    intro v
    have hstep : lastMaxByRate v (w :: tl) =
        lastMaxByRate (if v.conversion_rate > w.conversion_rate then v else w) tl := by
      simp [lastMaxByRate]
    obtain ⟨ihm, ihd⟩ := ih (if v.conversion_rate > w.conversion_rate then v else w)
    rw [hstep]
    constructor
    · rcases List.mem_cons.mp ihm with h | h
      · rw [h]
        by_cases hvw : v.conversion_rate > w.conversion_rate
        · simp [hvw]
        · simp [hvw]
      · exact List.mem_cons_of_mem _ (List.mem_cons_of_mem _ h)
    · intro x hx
      rcases List.mem_cons.mp hx with rfl | hx2
      · have hv_le : x.conversion_rate ≤
            (if x.conversion_rate > w.conversion_rate then x else w).conversion_rate := by
          by_cases hvw : x.conversion_rate > w.conversion_rate
          · simp [hvw]
          · simp [hvw]
            exact le_of_not_lt hvw
        exact le_trans hv_le (ihd _ (List.mem_cons_self _ _))
      rcases List.mem_cons.mp hx2 with rfl | hx3
      · have hw_le : x.conversion_rate ≤
            (if v.conversion_rate > x.conversion_rate then v else x).conversion_rate := by
          by_cases hvw : v.conversion_rate > x.conversion_rate
          · simp [hvw]
            exact le_of_lt hvw
          · simp [hvw]
        exact le_trans hw_le (ihd _ (List.mem_cons_self _ _))
      · exact ihd x (List.mem_cons_of_mem _ hx3)

/-- C2 (amended): determine_winner takes the highest-conversion-rate row
as candidate (the last maximum, as Rust max_by) and compares it pairwise
against every other row by id; the winner is declared exactly when SOME
pairwise comparison (equivalently: the strongest one) reaches the target
confidence level, and the reported confidence is the running maximum of
the pairwise confidences.  The original claim (winner only when the
weakest comparison reaches the target) fails: see the counterexample. -/
theorem C2_winner_strongest_comparison (v w : VariantResults)
    (rest : List VariantResults) (level : ℚ)
    (hpos : ∀ x ∈ v :: w :: rest, 0 < x.sample_size) :
    let best := lastMaxByRate v (w :: rest)
    let confs := (winnerRivals best (v :: w :: rest)).map (pairConfidence best)
    determineWinner (v :: w :: rest) level =
      .ok ((if confs.any (fun c => if level ≤ c then true else false)
            then some best.variant_id else none),
        confs.foldl max 0,
        confs.any (fun c => if level ≤ c then true else false)) ∧
    best ∈ v :: w :: rest ∧
    ∀ x ∈ v :: w :: rest, x.conversion_rate ≤ best.conversion_rate := by
  intro best confs
  obtain ⟨hmem, hdom⟩ := lastMaxByRate_mem_dom (w :: rest) v
  have hb : 0 < best.sample_size := hpos best hmem
  refine ⟨?_, hmem, hdom⟩
  simp only [determineWinner]
  rw [winnerLoop_spec best level hb (v :: w :: rest) hpos 0 false]
  simp only [Bool.false_or]

theorem C2_witness :
    (let best := lastMaxByRate vrA [vrB, vrC]
     let confs := (winnerRivals best [vrA, vrB, vrC]).map (pairConfidence best)
     determineWinner [vrA, vrB, vrC] (95/100) =
       .ok ((if confs.any (fun c => if (95:ℚ)/100 ≤ c then true else false)
             then some best.variant_id else none),
         confs.foldl max 0,
         confs.any (fun c => if (95:ℚ)/100 ≤ c then true else false)) ∧
     best ∈ [vrA, vrB, vrC] ∧
     ∀ x ∈ [vrA, vrB, vrC], x.conversion_rate ≤ best.conversion_rate) :=
  C2_winner_strongest_comparison vrA vrB [vrC] (95/100) (by decide)

/-- C2 counterexample: with three qualifying rows (rates 0, 1, 1 at sample
size 200 each) the best row "c" beats "a" with confidence 0.99 but ties
"b" with confidence 0 — the weakest comparison is far below the 0.95
target — yet determine_winner still declares "c" the winner. -/
theorem C2_counterexample :
    determineWinner [vrA, vrB, vrC] (95/100) = .ok (some "c", 99/100, true) ∧
    calculateStatisticalConfidence vrC.conversion_rate vrC.sample_size
      vrB.conversion_rate vrB.sample_size = .ok 0 ∧
    ¬((95 : ℚ)/100 ≤ 0) := by
  refine ⟨?_, ?_, by norm_num⟩
  · norm_num [determineWinner, winnerLoop, lastMaxByRate, calculateStatisticalConfidence,
      vrA, vrB, vrC]
    simp
  · norm_num [calculateStatisticalConfidence, vrB, vrC]

theorem validate_ok {test : ABTest} (h : validateTestConfiguration test = .ok ()) :
    testValid test := by
  unfold validateTestConfiguration at h
  split_ifs at h with h1 h2 h3 h4 h5
  all_goals simp only [reduceCtorEq] at h
  push_neg at h4 h5
  exact ⟨Nat.le_of_not_lt h2, le_of_not_lt h3, h4.1, h4.2, h5.1, h5.2⟩

theorem createTest_ok_cases {s : ABState} {test : ABTest} {fid : String} {now : Int}
    {tid : String} {s2 : ABState} (h : createTest s test fid now = .ok (tid, s2)) :
    testValid test ∧
    ∀ id t, s2.tests id = some t → s.tests id = some t ∨ testValid t := by
  unfold createTest at h
  split at h
  · next e heq => exact absurd h (by simp)
  · next u heq =>
    have hv : testValid test := validate_ok (by cases u; exact heq)
    refine ⟨hv, ?_⟩
    by_cases hid : test.id = ""
    · rw [if_pos hid] at h
      simp only [] at h
      split at h
      · next => exact absurd h (by simp)
      · next =>
        simp only [Except.ok.injEq, Prod.mk.injEq] at h
        obtain ⟨_, h2⟩ := h
        subst h2
        intro id t ht
        simp only [updateMap] at ht
        split at ht
        · next =>
          simp only [Option.some.injEq] at ht
          subst ht
          exact Or.inr hv
        · next => exact Or.inl ht
    · rw [if_neg hid] at h
      simp only [] at h
      split at h
      · next => exact absurd h (by simp)
      · next =>
        simp only [Except.ok.injEq, Prod.mk.injEq] at h
        obtain ⟨_, h2⟩ := h
        subst h2
        intro id t ht
        simp only [updateMap] at ht
        split at ht
        · next =>
          simp only [Option.some.injEq] at ht
          subst ht
          exact Or.inr hv
        · next => exact Or.inl ht

theorem startTest_preserves_valid {s : ABState} {tid : String} {now : Int}
    {u : Unit} {s2 : ABState} (h : startTest s tid now = .ok (u, s2))
    (ih : ∀ id t, s.tests id = some t → testValid t) :
    ∀ id t, s2.tests id = some t → testValid t := by
  unfold startTest at h
  split at h
  · next => exact absurd h (by simp)
  · next t0 hT =>
    split at h
    · simp only [Except.ok.injEq, Prod.mk.injEq] at h
      obtain ⟨_, h2⟩ := h
      subst h2
      intro id t ht
      simp only [updateMap] at ht
      split at ht
      · next heq =>
        simp only [Option.some.injEq] at ht
        subst ht
        exact ih tid t0 hT
      · next => exact ih id t ht
    · simp only [Except.ok.injEq, Prod.mk.injEq] at h
      obtain ⟨_, h2⟩ := h
      subst h2
      intro id t ht
      simp only [updateMap] at ht
      split at ht
      · next heq =>
        simp only [Option.some.injEq] at ht
        subst ht
        exact ih tid t0 hT
      · next => exact ih id t ht
    · next => exact absurd h (by simp)

theorem stopTest_preserves_valid {s : ABState} {tid : String} {now : Int}
    {u : Unit} {s2 : ABState} (h : stopTest s tid now = .ok (u, s2))
    (ih : ∀ id t, s.tests id = some t → testValid t) :
    ∀ id t, s2.tests id = some t → testValid t := by
  unfold stopTest at h
  split at h
  · next => exact absurd h (by simp)
  · next t0 hT =>
    split at h
    · simp only [Except.ok.injEq, Prod.mk.injEq] at h
      obtain ⟨_, h2⟩ := h
      subst h2
      intro id t ht
      simp only [updateMap] at ht
      split at ht
      · next heq =>
        simp only [Option.some.injEq] at ht
        subst ht
        exact ih tid t0 hT
      · next => exact ih id t ht
    · next => exact absurd h (by simp)

theorem recordEvent_tests {s : ABState} {tid vid : String} {uid : Option Int}
    {email : String} {et : EventType} {eid : String} {now : Int}
    {u : Unit} {s2 : ABState}
    (h : recordEvent s tid vid uid email et eid now = .ok (u, s2)) :
    s2.tests = s.tests := by
  unfold recordEvent at h
  split at h
  · simp only [Except.ok.injEq, Prod.mk.injEq] at h
    obtain ⟨_, h2⟩ := h
    subst h2
    rfl
  · exact absurd h (by simp)

theorem reachable_tests_valid {hashFn : String → Nat} {s : ABState}
    (h : ABReachable hashFn s) : ∀ id t, s.tests id = some t → testValid t := by
  induction h with
  | init => intro id t ht; exact absurd ht (by simp [ABState.initial])
  | step s op hs ih =>
    cases op with
    | createT test fid now =>
      cases hc : createTest s test fid now with
      | error e =>
        intro id t ht
        simp only [applyABOp, hc] at ht
        exact ih id t ht
      | ok p =>
        obtain ⟨tid2, s2⟩ := p
        intro id t ht
        simp only [applyABOp, hc] at ht
        rcases (createTest_ok_cases hc).2 id t ht with h1 | h2
        · exact ih id t h1
        · exact h2
    | startT tid now =>
      cases hc : startTest s tid now with
      | error e =>
        intro id t ht
        simp only [applyABOp, hc] at ht
        exact ih id t ht
      | ok p =>
        obtain ⟨u, s2⟩ := p
        intro id t ht
        simp only [applyABOp, hc] at ht
        exact startTest_preserves_valid hc ih id t ht
    | stopT tid now =>
      cases hc : stopTest s tid now with
      | error e =>
        intro id t ht
        simp only [applyABOp, hc] at ht
        exact ih id t ht
      | ok p =>
        obtain ⟨u, s2⟩ := p
        intro id t ht
        simp only [applyABOp, hc] at ht
        exact stopTest_preserves_valid hc ih id t ht
    | assignT tid uid email now =>
      intro id t ht
      cases hc : assignUserToTest hashFn s tid uid email now with
      | none =>
        simp only [applyABOp, hc] at ht
        exact ih id t ht
      | some r =>
        cases r with
        | error e =>
          simp only [applyABOp, hc] at ht
          exact ih id t ht
        | ok p =>
          obtain ⟨a, s2⟩ := p
          simp only [applyABOp, hc] at ht
          rw [(assign_ok_facts hc).2.1] at ht
          exact ih id t ht
    | recordEv tid vid uid email et eid now =>
      intro id t ht
      cases hc : recordEvent s tid vid uid email et eid now with
      | error e =>
        simp only [applyABOp, hc] at ht
        exact ih id t ht
      | ok p =>
        obtain ⟨u, s2⟩ := p
        simp only [applyABOp, hc] at ht
        rw [recordEvent_tests hc] at ht
        exact ih id t ht

theorem assignFresh_none {hashFn : String → Nat} {s : ABState} {test : ABTest}
    {tid : String} {uid : Option Int} {email : String} {now : Int}
    (h : assignFresh hashFn s test tid uid email now = none) :
    test.variants = [] := by
  simp only [assignFresh] at h
  split at h
  · split at h
    · next heq => exact List.head?_eq_none_iff.mp heq
    · next => exact absurd h (by simp)
  · split at h
    · next => exact absurd h (by simp)
    · next => exact absurd h (by simp)

theorem assign_none_variants {hashFn : String → Nat} {s : ABState} {tid : String}
    {uid : Option Int} {email : String} {now : Int}
    (h : assignUserToTest hashFn s tid uid email now = none) :
    ∃ test, s.tests tid = some test ∧ test.variants = [] := by
  unfold assignUserToTest at h
  split at h
  · next => exact absurd h (by simp)
  · next test hT =>
    split at h
    · next hR =>
      split at h
      · next ex hA =>
        split at h
        · next => exact absurd h (by simp)
        · next => exact ⟨test, hT, assignFresh_none h⟩
      · next hA => exact ⟨test, hT, assignFresh_none h⟩
    · next => exact absurd h (by simp)

/-- C9: every experiment stored at a reachable state of the framework has
at least two variants, traffic weights summing to 1 within 0.001, traffic
allocation in the unit interval and confidence level in the half-to-0.99
interval: create_test establishes this and no other operation alters the
validated fields; consequently the variants[0] access inside
assign_user_to_test can never index out of bounds (assignment never
panics). -/
theorem C9_reachable_invariant {hashFn : String → Nat} {s : ABState}
    (h : ABReachable hashFn s) :
    (∀ id t, s.tests id = some t → testValid t) ∧
    ∀ tid uid email now, assignUserToTest hashFn s tid uid email now ≠ none := by
  have hv := reachable_tests_valid h
  refine ⟨hv, ?_⟩
  intro tid uid email now hnone
  obtain ⟨test, hT, hE⟩ := assign_none_variants hnone
  have h2 := (hv tid test hT).1
  rw [hE] at h2
  simp at h2

theorem C9_witness :
    (∀ id t, s9.tests id = some t → testValid t) ∧
    ∀ tid uid email now, assignUserToTest hfw s9 tid uid email now ≠ none :=
  C9_reachable_invariant
    (ABReachable.step ABState.initial (ABOp.createT testCfg "fresh" 0) ABReachable.init)

theorem cumWeight_cons (v : TestVariant) (l : List TestVariant) (k : Nat) :
    cumWeight (v :: l) (k + 1) = v.traffic_weight + cumWeight l k := by
  simp [cumWeight]

theorem selectVariantAux_some (nh : ℚ) :
    ∀ (l : List TestVariant) (c : ℚ) (v : TestVariant),
    selectVariantAux nh c l = some v →
    ∃ i, ∃ hi : i < l.length, v = l.get ⟨i, hi⟩ ∧ nh ≤ c + cumWeight l (i + 1) ∧
      ∀ j, j < i → c + cumWeight l (j + 1) < nh := by
  intro l
  induction l with
  | nil => intro c v h; exact absurd h (by simp [selectVariantAux])
  | cons w tl ih =>
    intro c v h
    simp only [selectVariantAux] at h
    split at h
    · next hle =>
      simp only [Option.some.injEq] at h
      subst h
      refine ⟨0, by simp, rfl, ?_, ?_⟩
      · rw [cumWeight_cons]
        simpa [cumWeight] using hle
      · intro j hj
        exact absurd hj (Nat.not_lt_zero j)
    · next hgt =>
      obtain ⟨i, hi, hv, hle, hprev⟩ := ih (c + w.traffic_weight) v h
      refine ⟨i + 1, by simpa using Nat.succ_lt_succ hi, by simpa using hv, ?_, ?_⟩
      · rw [cumWeight_cons]
        linarith
      · intro j hj
        cases j with
        | zero =>
          rw [cumWeight_cons]
          have hlt := lt_of_not_le hgt
          simp [cumWeight]
          linarith
        | succ j2 =>
          rw [cumWeight_cons]
          have := hprev j2 (by omega)
          linarith

theorem selectVariantAux_none (nh : ℚ) :
    ∀ (l : List TestVariant) (c : ℚ), selectVariantAux nh c l = none →
    ∀ i, i < l.length → c + cumWeight l (i + 1) < nh := by
  intro l
  induction l with
  | nil => intro c h i hi; exact absurd hi (by simp)
  | cons w tl ih =>
    intro c h i hi
    simp only [selectVariantAux] at h
    split at h
    · next => exact absurd h (by simp)
    · next hgt =>
      cases i with
      | zero =>
        rw [cumWeight_cons]
        have hlt := lt_of_not_le hgt
        simp [cumWeight]
        linarith
      | succ i2 =>
        rw [cumWeight_cons]
        have := ih (c + w.traffic_weight) h i2 (by simpa using Nat.lt_of_succ_lt_succ hi)
        linarith

/-- C3: for a running experiment and a not-yet-assigned recipient,
assign_user_to_test records a fresh assignment in the table; if the hashed
identifier exceeds the traffic-allocation threshold the first (control)
variant is assigned, otherwise the first variant whose cumulative traffic
weight reaches the normalized hash (walking the variants in declared
order), with the last variant as fallback when no cumulative weight
reaches it. -/
theorem C3_assignment_path {hashFn : String → Nat} {s : ABState} {tid : String}
    {uid : Option Int} {email : String} {now : Int} {test : ABTest}
    (hT : s.tests tid = some test) (hR : test.status = TestStatus.Running)
    (hNA : ∀ ex, s.assignments email = some ex → ex.test_id ≠ tid)
    (hV : test.variants ≠ []) :
    ∃ a, assignUserToTest hashFn s tid uid email now =
        some (.ok (a, { s with assignments := updateMap s.assignments email a })) ∧
      a.test_id = tid ∧ a.email = email ∧
      (trafficThreshold test.traffic_allocation < hashUserIdentifier hashFn email →
        ∃ h0 : 0 < test.variants.length,
          a.variant_id = (test.variants.get ⟨0, h0⟩).id) ∧
      (hashUserIdentifier hashFn email ≤ trafficThreshold test.traffic_allocation →
        (∃ i, ∃ hi : i < test.variants.length,
            a.variant_id = (test.variants.get ⟨i, hi⟩).id ∧
            ((hashUserIdentifier hashFn email : ℚ) / (U32MAX : ℚ)) ≤
              cumWeight test.variants (i + 1) ∧
            ∀ j, j < i → cumWeight test.variants (j + 1) <
              ((hashUserIdentifier hashFn email : ℚ) / (U32MAX : ℚ))) ∨
          (a.variant_id = (test.variants.getLast hV).id ∧
            ∀ i, i < test.variants.length → cumWeight test.variants (i + 1) <
              ((hashUserIdentifier hashFn email : ℚ) / (U32MAX : ℚ)))) := by
  have hfresh : assignUserToTest hashFn s tid uid email now =
      assignFresh hashFn s test tid uid email now := by
    cases hA : s.assignments email with
    | none => simp [assignUserToTest, hT, hR, hA]
    | some ex => simp [assignUserToTest, hT, hR, hA, hNA ex hA]
  rw [hfresh]
  by_cases hth : trafficThreshold test.traffic_allocation < hashUserIdentifier hashFn email
  · obtain ⟨v0, vrest, hvv⟩ : ∃ v0 vrest, test.variants = v0 :: vrest := by
      cases hvv : test.variants with
      | nil => exact absurd hvv hV
      | cons a l => exact ⟨a, l, rfl⟩
    refine ⟨⟨uid, email, tid, v0.id, now, none⟩, ?_, rfl, rfl, ?_, ?_⟩
    · simp [assignFresh, if_pos hth, hvv]
    · intro _
      refine ⟨by rw [hvv]; simp, ?_⟩
      simp [hvv]
    · intro hle
      exact absurd hth (not_lt.mpr hle)
  · cases hsel : selectVariantAux
        ((hashUserIdentifier hashFn email : ℚ) / (U32MAX : ℚ)) 0 test.variants with
    | some v =>
      refine ⟨⟨uid, email, tid, v.id, now, none⟩, ?_, rfl, rfl, ?_, ?_⟩
      · simp [assignFresh, if_neg hth, selectVariantForUser, hsel]
      · intro hth2
        exact absurd hth2 hth
      · intro _
        left
        obtain ⟨i, hi, hv2, hle2, hprev⟩ := selectVariantAux_some _ _ _ _ hsel
        refine ⟨i, hi, by rw [hv2], by simpa using hle2, ?_⟩
        intro j hj
        simpa using hprev j hj
    | none =>
      refine ⟨⟨uid, email, tid, (test.variants.getLast hV).id, now, none⟩, ?_, rfl, rfl, ?_, ?_⟩
      · simp [assignFresh, if_neg hth, selectVariantForUser, hsel,
          List.getLast?_eq_getLast _ hV]
      · intro hth2
        exact absurd hth2 hth
      · intro _
        right
        refine ⟨rfl, ?_⟩
        intro i hi
        simpa using selectVariantAux_none _ _ _ hsel i hi

theorem testW_variants_ne_nil : testW.variants ≠ [] := by simp [testW]

theorem C3_witness :
    ∃ a, assignUserToTest hfw sW "t1" none "u@y" 6 =
        some (.ok (a, { sW with assignments := updateMap sW.assignments "u@y" a })) ∧
      a.test_id = "t1" ∧ a.email = "u@y" ∧
      (trafficThreshold testW.traffic_allocation < hashUserIdentifier hfw "u@y" →
        ∃ h0 : 0 < testW.variants.length,
          a.variant_id = (testW.variants.get ⟨0, h0⟩).id) ∧
      (hashUserIdentifier hfw "u@y" ≤ trafficThreshold testW.traffic_allocation →
        (∃ i, ∃ hi : i < testW.variants.length,
            a.variant_id = (testW.variants.get ⟨i, hi⟩).id ∧
            ((hashUserIdentifier hfw "u@y" : ℚ) / (U32MAX : ℚ)) ≤
              cumWeight testW.variants (i + 1) ∧
            ∀ j, j < i → cumWeight testW.variants (j + 1) <
              ((hashUserIdentifier hfw "u@y" : ℚ) / (U32MAX : ℚ))) ∨
          (a.variant_id = (testW.variants.getLast testW_variants_ne_nil).id ∧
            ∀ i, i < testW.variants.length → cumWeight testW.variants (i + 1) <
              ((hashUserIdentifier hfw "u@y" : ℚ) / (U32MAX : ℚ)))) :=
  C3_assignment_path rfl rfl (fun ex h => absurd h (by simp [sW])) testW_variants_ne_nil

/-- C7 (amended): once a campaign has been marked sent, its sent_at and
total_recipients are unchanged by every later operation other than a
further mark_campaign_sent call on the same campaign (campaign creation
uses fresh UUIDs, so a create cannot collide with an existing id), and the
analytics of the campaign report exactly the stored frozen
total_recipients.  The original claim fails because mark_campaign_sent is
not guarded: a second call re-stamps sent_at and overwrites
total_recipients (see the counterexample). -/
theorem C7_sent_fields_frozen {s : NAState} {cid : String} {c : NewsletterCampaign}
    (op : NAOp) (h : s.campaigns cid = some c)
    (hnm : ∀ n t, op ≠ NAOp.markSent cid n t)
    (hnc : ∀ nm sb vr t, op ≠ NAOp.createC cid nm sb vr t) :
    (applyNAOp op s).campaigns cid = some c ∧
    ∀ a, getCampaignAnalytics s cid = .ok a →
      a.total_recipients = c.total_recipients ∧ a.sent_at = c.sent_at := by
  constructor
  · cases op with
    | createC cid2 nm sb vr t =>
      have hch : ¬(cid = cid2) := fun hEq => hnc nm sb vr t (by rw [hEq])
      simp only [applyNAOp, createCampaign, updateCampaigns]
      rw [if_neg hch]
      exact h
    | markSent cid2 n t =>
      have hch : ¬(cid = cid2) := fun hEq => hnm n t (by rw [hEq])
      cases hm : markCampaignSent s cid2 n t with
      | error e => simp only [applyNAOp, hm]; exact h
      | ok p =>
        obtain ⟨u, s2⟩ := p
        simp only [applyNAOp, hm]
        unfold markCampaignSent at hm
        split at hm
        · next => exact absurd hm (by simp)
        · next c0 hc0 =>
          simp only [Except.ok.injEq, Prod.mk.injEq] at hm
          obtain ⟨_, hm2⟩ := hm
          subst hm2
          simp only [updateCampaigns]
          rw [if_neg hch]
          exact h
    | track cid2 em uid et eid t =>
      cases hm : trackEngagement s cid2 em uid et eid t with
      | error e => simp only [applyNAOp, hm]; exact h
      | ok p =>
        obtain ⟨eid2, s2⟩ := p
        simp only [applyNAOp, hm]
        unfold trackEngagement at hm
        split at hm
        · simp only [Except.ok.injEq, Prod.mk.injEq] at hm
          obtain ⟨_, hm2⟩ := hm
          subst hm2
          exact h
        · exact absurd hm (by simp)
  · intro a ha
    unfold getCampaignAnalytics at ha
    rw [h] at ha
    simp only [Except.ok.injEq] at ha
    subst ha
    exact ⟨rfl, rfl⟩

theorem C7_witness :
    naW1.campaigns "c" = some cW1 ∧
    (applyNAOp (NAOp.track "c" "u9" none .Opened "g9" 3) naW1).campaigns "c" = some cW1 ∧
    ∀ a, getCampaignAnalytics naW1 "c" = .ok a →
      a.total_recipients = cW1.total_recipients ∧ a.sent_at = cW1.sent_at := by
  have h : naW1.campaigns "c" = some cW1 := rfl
  have hmain := C7_sent_fields_frozen (NAOp.track "c" "u9" none .Opened "g9" 3) h
    (fun n t hEq => NAOp.noConfusion hEq) (fun nm sb vr t hEq => NAOp.noConfusion hEq)
  exact ⟨h, hmain.1, hmain.2⟩

/-- C7 counterexample: mark_campaign_sent is not a one-way transition; a
second call on the already-sent campaign re-stamps sent_at and overwrites
total_recipients. -/
theorem C7_counterexample :
    (naW1.campaigns "c").map (fun x => (x.sent_at, x.total_recipients)) = some (some 1, 5) ∧
    (naW2.campaigns "c").map (fun x => (x.sent_at, x.total_recipients)) = some (some 2, 7) :=
  ⟨rfl, rfl⟩

/-- C4: get_campaign_analytics computes delivery = delivered/total,
open = opened/delivered, click = clicked/delivered, click-to-open =
clicked/opened, bounce = bounced/total, complaint = complained/delivered,
unsubscribe = unsubscribed/delivered, conversion = converted/delivered,
each rate falling back to 0 when its denominator is 0; a campaign with no
engagements yields all rates 0 and engagement score 0. -/
theorem C4_campaign_rates {s : NAState} {cid : String} {campaign : NewsletterCampaign}
    (h : s.campaigns cid = some campaign) :
    ∃ a, getCampaignAnalytics s cid = .ok a ∧
      (let E := s.engagements.filter fun e => e.campaign_id == cid
       let tr : ℚ := (campaign.total_recipients : ℚ)
       let del := countEvents E .Delivered
       let op := countEvents E .Opened
       let cl := countEvents E .Clicked
       let bo := countEvents E .Bounced
       let cm := countEvents E .Complained
       let un := countEvents E .Unsubscribed
       let cv := countEvents E .Converted
       a.total_recipients = campaign.total_recipients ∧
       a.sent_at = campaign.sent_at ∧
       a.delivered_count = del ∧ a.opened_count = op ∧ a.clicked_count = cl ∧
       a.bounced_count = bo ∧ a.complained_count = cm ∧ a.unsubscribed_count = un ∧
       a.converted_count = cv ∧
       (0 < tr → a.delivery_rate = (del : ℚ) / tr ∧ a.bounce_rate = (bo : ℚ) / tr) ∧
       (¬ 0 < tr → a.delivery_rate = 0 ∧ a.bounce_rate = 0) ∧
       (0 < del → a.open_rate = (op : ℚ) / (del : ℚ) ∧
         a.click_rate = (cl : ℚ) / (del : ℚ) ∧
         a.complaint_rate = (cm : ℚ) / (del : ℚ) ∧
         a.unsubscribe_rate = (un : ℚ) / (del : ℚ) ∧
         a.conversion_rate = (cv : ℚ) / (del : ℚ)) ∧
       (del = 0 → a.open_rate = 0 ∧ a.click_rate = 0 ∧ a.complaint_rate = 0 ∧
         a.unsubscribe_rate = 0 ∧ a.conversion_rate = 0) ∧
       (0 < op → a.click_to_open_rate = (cl : ℚ) / (op : ℚ)) ∧
       (op = 0 → a.click_to_open_rate = 0) ∧
       a.engagement_score = calculateEngagementScore a.open_rate a.click_rate
         a.conversion_rate a.bounce_rate a.complaint_rate a.unsubscribe_rate ∧
       (E = [] → a.delivery_rate = 0 ∧ a.open_rate = 0 ∧ a.click_rate = 0 ∧
         a.click_to_open_rate = 0 ∧ a.bounce_rate = 0 ∧ a.complaint_rate = 0 ∧
         a.unsubscribe_rate = 0 ∧ a.conversion_rate = 0 ∧ a.engagement_score = 0)) := by
  simp only [getCampaignAnalytics, h]
  refine ⟨_, rfl, ?_⟩
  refine ⟨rfl, rfl, rfl, rfl, rfl, rfl, rfl, rfl, rfl, ?_, ?_, ?_, ?_, ?_, ?_, rfl, ?_⟩
  · intro htr
    rw [if_pos htr, if_pos htr]
    exact ⟨rfl, rfl⟩
  · intro htr
    rw [if_neg htr, if_neg htr]
    exact ⟨rfl, rfl⟩
  · intro hdel
    rw [if_pos hdel, if_pos hdel, if_pos hdel, if_pos hdel, if_pos hdel]
    exact ⟨rfl, rfl, rfl, rfl, rfl⟩
  · intro hdel
    have hnd : ¬ 0 < countEvents (s.engagements.filter fun e => e.campaign_id == cid)
        .Delivered := by omega
    rw [if_neg hnd, if_neg hnd, if_neg hnd, if_neg hnd, if_neg hnd]
    exact ⟨rfl, rfl, rfl, rfl, rfl⟩
  · intro hop
    rw [if_pos hop]
  · intro hop
    have hno : ¬ 0 < countEvents (s.engagements.filter fun e => e.campaign_id == cid)
        .Opened := by omega
    rw [if_neg hno]
  · intro hE
    simp [hE, countEvents, calculateEngagementScore]

theorem C4_witness :
    ∃ a, getCampaignAnalytics naSW "c" = .ok a ∧
      (let E := naSW.engagements.filter fun e => e.campaign_id == "c"
       let tr : ℚ := (naC.total_recipients : ℚ)
       let del := countEvents E .Delivered
       let op := countEvents E .Opened
       let cl := countEvents E .Clicked
       let bo := countEvents E .Bounced
       let cm := countEvents E .Complained
       let un := countEvents E .Unsubscribed
       let cv := countEvents E .Converted
       a.total_recipients = naC.total_recipients ∧
       a.sent_at = naC.sent_at ∧
       a.delivered_count = del ∧ a.opened_count = op ∧ a.clicked_count = cl ∧
       a.bounced_count = bo ∧ a.complained_count = cm ∧ a.unsubscribed_count = un ∧
       a.converted_count = cv ∧
       (0 < tr → a.delivery_rate = (del : ℚ) / tr ∧ a.bounce_rate = (bo : ℚ) / tr) ∧
       (¬ 0 < tr → a.delivery_rate = 0 ∧ a.bounce_rate = 0) ∧
       (0 < del → a.open_rate = (op : ℚ) / (del : ℚ) ∧
         a.click_rate = (cl : ℚ) / (del : ℚ) ∧
         a.complaint_rate = (cm : ℚ) / (del : ℚ) ∧
         a.unsubscribe_rate = (un : ℚ) / (del : ℚ) ∧
         a.conversion_rate = (cv : ℚ) / (del : ℚ)) ∧
       (del = 0 → a.open_rate = 0 ∧ a.click_rate = 0 ∧ a.complaint_rate = 0 ∧
         a.unsubscribe_rate = 0 ∧ a.conversion_rate = 0) ∧
       (0 < op → a.click_to_open_rate = (cl : ℚ) / (op : ℚ)) ∧
       (op = 0 → a.click_to_open_rate = 0) ∧
       a.engagement_score = calculateEngagementScore a.open_rate a.click_rate
         a.conversion_rate a.bounce_rate a.complaint_rate a.unsubscribe_rate ∧
       (E = [] → a.delivery_rate = 0 ∧ a.open_rate = 0 ∧ a.click_rate = 0 ∧
         a.click_to_open_rate = 0 ∧ a.bounce_rate = 0 ∧ a.complaint_rate = 0 ∧
         a.unsubscribe_rate = 0 ∧ a.conversion_rate = 0 ∧ a.engagement_score = 0)) :=
  C4_campaign_rates rfl

set_option maxHeartbeats 3200000 in
/-- C6 (amended): calculate_segment_match_score returns satisfied/present,
where every present criterion among languages, engagement-min,
engagement-max, frequency and tech-interests always counts toward the
denominator, but the two signup-age criteria count only when the
preferences carry a signup date; the score is 0 when no field counts.
The original claim (every present signup-age criterion always increments
the denominator) fails: see the counterexample. -/
theorem C6_segment_match_score (criteria : SegmentCriteria)
    (preferences : PersonalizationPreferences) (now : Int) :
    calculateSegmentMatchScore criteria preferences now =
      if 0 < presentTally criteria preferences then
        satisfiedTally criteria preferences now / presentTally criteria preferences
      else 0 := by
  obtain ⟨ls, emin, emax, fr, ti, smin, smax⟩ := criteria
  obtain ⟨pl, ts, f, es, uid, sd⟩ := preferences
  rcases ls with _ | L <;> rcases emin with _ | m1 <;> rcases emax with _ | m2 <;>
    rcases fr with _ | fq <;> rcases ti with _ | I <;> rcases smin with _ | d1 <;>
    rcases smax with _ | d2 <;> rcases sd with _ | d <;>
    norm_num [calculateSegmentMatchScore, presentTally, satisfiedTally]

/-- C6 counterexample: with criteria carrying a language list and a
signup-age minimum, but preferences carrying no signup date, the source
scores 1/1 (the signup criterion is skipped entirely) while the claim
prescribes 1/2 (denominator incremented for every present field). -/
theorem C6_counterexample :
    calculateSegmentMatchScore critX prefX 0 = 1 ∧
    claimSegmentMatchScore critX prefX 0 = 1/2 ∧
    (1 : ℚ) ≠ 1/2 := by
  refine ⟨?_, ?_, by norm_num⟩
  · norm_num [calculateSegmentMatchScore, critX, prefX]
  · norm_num [claimSegmentMatchScore, claimPresentTally, satisfiedTally, critX, prefX]

theorem length_insertSorted {α : Type} (le : α → α → Bool) (x : α) :
    ∀ l : List α, (insertSorted le x l).length = l.length + 1 := by
  intro l
  induction l with
  | nil => rfl
  | cons y ys ih =>
    simp only [insertSorted]
    split
    · simp
    · simp [ih]

theorem length_stableSortBy {α : Type} (le : α → α → Bool) :
    ∀ l : List α, (stableSortBy le l).length = l.length := by
  intro l
  induction l with
  | nil => rfl
  | cons x xs ih => simp [stableSortBy, length_insertSorted, ih]

/-- C5 (amended): for a nonempty candidate list, personalize_content
always divides the sum of the top-min(5, n) scores by the constant 5: with
at least five candidates this is the mean of the top five scores, but with
fewer candidates it is the sum of all scores divided by 5, not 0 (the
zero branch guards only the unreachable empty case).  The original claim
(0 when fewer than 5 qualify) fails: see the counterexample. -/
theorem C5_personalization_score (segments : List UserSegment)
    (repositories : List Repository) (preferences : PersonalizationPreferences)
    (now : Int) (h : repositories ≠ []) :
    ∃ c, personalizeContent segments repositories preferences now = .ok c ∧
      (let sorted := stableSortBy scoreDesc (repositories.map
         (fun repo => (repo, calculateRepositoryScore repo preferences now)))
       c.personalization_score = ((sorted.take 5).map (fun t => t.2.1)).sum / 5 ∧
       (5 ≤ repositories.length →
         ((sorted.take 5).map (fun t => t.2.1)).length = 5 ∧
         c.personalization_score = (((sorted.take 5).map (fun t => t.2.1)).sum) /
           ((((sorted.take 5).map (fun t => t.2.1)).length : ℚ))) ∧
       (repositories.length < 5 →
         c.personalization_score = ((sorted.map (fun t => t.2.1)).sum) / 5)) := by
  have hEmpty : repositories.isEmpty = false := by
    cases repositories with
    | nil => exact absurd rfl h
    | cons a l => rfl
  have hslen : (stableSortBy scoreDesc (repositories.map
      (fun repo => (repo, calculateRepositoryScore repo preferences now)))).length =
      repositories.length := by
    rw [length_stableSortBy, List.length_map]
  have hsne : (stableSortBy scoreDesc (repositories.map
      (fun repo => (repo, calculateRepositoryScore repo preferences now)))).isEmpty
      = false := by
    cases hs : stableSortBy scoreDesc (repositories.map
        (fun repo => (repo, calculateRepositoryScore repo preferences now))) with
    | nil =>
      rw [hs] at hslen
      exact absurd (List.length_eq_zero.mp hslen.symm) h
    | cons a l => rfl
  simp only [personalizeContent, hEmpty, Bool.false_eq_true, if_false]
  refine ⟨_, rfl, ?_⟩
  refine ⟨?_, ?_, ?_⟩
  · simp [hsne]
  · intro h5
    have hl : ((stableSortBy scoreDesc (repositories.map
        (fun repo => (repo, calculateRepositoryScore repo preferences now)))).take 5).length
        = 5 := by
      rw [List.length_take, hslen]
      exact Nat.min_eq_left h5
    rw [List.length_map, hl]
    refine ⟨rfl, ?_⟩
    norm_num [hsne]
  · intro h5
    have htake : (stableSortBy scoreDesc (repositories.map
        (fun repo => (repo, calculateRepositoryScore repo preferences now)))).take 5 =
        stableSortBy scoreDesc (repositories.map
          (fun repo => (repo, calculateRepositoryScore repo preferences now))) := by
      apply List.take_of_length_le
      rw [hslen]
      omega
    simp [hsne, htake]

/-- C5 counterexample: a single candidate (so fewer than five qualify)
yields personalization score (1/10)/5 = 1/50, not 0. -/
theorem C5_counterexample :
    personalizeContent [] [repoW] prefsW 100 = .ok ⟨[repoW], generalSegment, 1/50, []⟩ ∧
    (1 : ℚ)/50 ≠ 0 := by
  refine ⟨?_, by norm_num⟩
  norm_num [personalizeContent, determineUserSegment, stableSortBy, insertSorted,
    calculateRepositoryScore, starScore, repoW, prefsW, generalSegment, scoreDesc]

theorem C5_witness :
    ∃ c, personalizeContent [] [repoW, repoW, repoW, repoW, repoW] prefsW 100 = .ok c ∧
      (let sorted := stableSortBy scoreDesc ([repoW, repoW, repoW, repoW, repoW].map
         (fun repo => (repo, calculateRepositoryScore repo prefsW 100)))
       c.personalization_score = ((sorted.take 5).map (fun t => t.2.1)).sum / 5 ∧
       (5 ≤ [repoW, repoW, repoW, repoW, repoW].length →
         ((sorted.take 5).map (fun t => t.2.1)).length = 5 ∧
         c.personalization_score = (((sorted.take 5).map (fun t => t.2.1)).sum) /
           ((((sorted.take 5).map (fun t => t.2.1)).length : ℚ))) ∧
       ([repoW, repoW, repoW, repoW, repoW].length < 5 →
         c.personalization_score = ((sorted.map (fun t => t.2.1)).sum) / 5)) :=
  C5_personalization_score [] [repoW, repoW, repoW, repoW, repoW] prefsW 100 (by simp)

end Gitize
